import Mathlib

/-!
Verification development for the rectangle-packing simulation
(`mesa_approach`: `agents/agents.py` and `model/model.py`).

The embedding is polymorphic over a `LinearOrderedField K` (the Python code
computes with IEEE floats; here they are modelled as exact field elements).
Square roots (`np.linalg.norm`, `np.sqrt`) are threaded through as an explicit
function parameter `sqrtK`; all theorems about the force model instantiate
`K := ℝ` and `sqrtK := Real.sqrt`, while the integrator and index layers,
which never take square roots, are also instantiated at `K := ℚ` in witnesses
so that they can be evaluated.

Numeric literals from the source are written as exact fractions:
`0.95 = 95/100`, `0.01 = 1/100`, `0.4 = 4/10`, `0.6 = 6/10`, `0.2 = 2/10`,
`1.5 = 3/2`, `1e-8 = 1/100000000`, `1e-6 = 1/1000000`.
-/

namespace RectSim

/-- A `Rectangle` agent (`agents.py`): center position, velocity, extents and
speed cap.  The Python object identity is modelled by a numeric `id`. -/
structure Rect (K : Type) where
  id : ℕ
  position : K × K
  velocity : K × K
  width : K
  height : K
  speed : K
  deriving Repr

/-- One interval entry of an `IntervalTree`: `(lo, hi) → agent id`.
`intervaltree` stores the agent object as `data`; we store its id. -/
structure Entry (K : Type) where
  lo : K
  hi : K
  data : ℕ
  deriving Repr

/-- An interval tree is observably a collection of entries; queries only
depend on the set of entries, so a list is a faithful model. -/
abbrev Tree (K : Type) := List (Entry K)

/-- The shared model state (`OptimalRectanglePackingModel`): the agent list,
the two interval trees and the arena dimensions (`space.x_max`, `space.y_max`). -/
structure ModelState (K : Type) where
  agents : List (Rect K)
  xTree : Tree K
  yTree : Tree K
  spaceW : K
  spaceH : K

variable {K : Type} [LinearOrderedField K]

/-- Minimum of a list (used for `.min()` of the nonempty numpy arrays of
bbox coordinates; the `[]` case is never reached). -/
def listMin : List K → K
  | [] => 0
  | x :: xs => xs.foldl min x

/-- Maximum of a list (`.max()` of a nonempty numpy array). -/
def listMax : List K → K
  | [] => 0
  | x :: xs => xs.foldl max x

/-- Embedding of `OptimalRectanglePackingModel._rect_interval`: axis intervals
`(x_min, x_max, y_min, y_max)` of a box of size `(width, height)` centered
at `position`. -/
def rectInterval (pos : K × K) (w h : K) : K × K × K × K :=
  (pos.1 - w / 2, pos.1 + w / 2, pos.2 - h / 2, pos.2 + h / 2)

/-- Embedding of `OptimalRectanglePackingModel.rects_overlap` (identical to
`Rectangle.check_overlap`): exact closed-interval overlap test,
`not (x1_max <= x2_min or x1_min >= x2_max or y1_max <= y2_min or y1_min >= y2_max)`. -/
def rectsOverlap (pos1 : K × K) (w1 h1 : K) (pos2 : K × K) (w2 h2 : K) : Bool :=
  let x1min := pos1.1 - w1 / 2
  let x1max := pos1.1 + w1 / 2
  let y1min := pos1.2 - h1 / 2
  let y1max := pos1.2 + h1 / 2
  let x2min := pos2.1 - w2 / 2
  let x2max := pos2.1 + w2 / 2
  let y2min := pos2.2 - h2 / 2
  let y2max := pos2.2 + h2 / 2
  decide (¬ (x1max ≤ x2min ∨ x1min ≥ x2max ∨ y1max ≤ y2min ∨ y1min ≥ y2max))

/-- The `intervaltree` slice query `tree[lo:hi]`: an entry is hit iff its interval
overlaps the half-open query range, i.e. `entry.lo < hi ∧ lo < entry.hi`. -/
def entryHit (e : Entry K) (lo hi : K) : Bool :=
  decide (e.lo < hi ∧ lo < e.hi)

/-- Embedding of `OptimalRectanglePackingModel.potential_overlaps_for_rect`: the broad-phase
filter.  Candidates are the intersection of the x-axis hit set and the y-axis
hit set (as a set of agent ids; the `c is not None` filter is vacuous since
every stored `data` is an agent). -/
def potentialOverlaps (xt yt : Tree K) (pos : K × K) (w h : K) : Finset ℕ :=
  let iv := rectInterval pos w h
  let xHits := ((xt.filter (fun e => entryHit e iv.1 iv.2.1)).map Entry.data).toFinset
  let yHits := ((yt.filter (fun e => entryHit e iv.2.2.1 iv.2.2.2)).map Entry.data).toFinset
  xHits ∩ yHits

/-- Dereference an agent id in the current agent list (models the fact that
the Python tree stores live references into the agent population). -/
def getRect (agents : List (Rect K)) (i : ℕ) : Option (Rect K) :=
  agents.find? (fun r => r.id == i)

/-- One exact-overlap re-check of a candidate id against a query box
(the body of the `any(...)` generators in `agents.py`/`model.py`). -/
def overlapWith (agents : List (Rect K)) (p : K × K) (w h : K) (c : ℕ) : Bool :=
  match getRect agents c with
  | some o => rectsOverlap p w h o.position o.width o.height
  | none => false

/-- Embedding of `overlaps_at` in `Rectangle.step`: query the index around a `(w, h)` box
centered at `p`, exclude self, and exact-check every candidate
(`any(... for c in candidates)`). -/
def overlapsAt (agents : List (Rect K)) (xt yt : Tree K) (selfId : ℕ)
    (p : K × K) (w h : K) : Bool :=
  decide (∃ c ∈ potentialOverlaps xt yt p w h,
    c ≠ selfId ∧ overlapWith agents p w h c = true)

/-- The bisection loop of `Rectangle.step`: `n` interval-halving iterations on
`(low, high)`; `mid = 0.5 * (low + high)`; an overlapping probe moves `high`
down, a free probe moves `low` up. -/
def bisectLoop (f : K → Bool) : ℕ → K × K → K × K
  | 0, lh => lh
  | n + 1, lh =>
      let mid := (lh.1 + lh.2) / 2
      if f mid then bisectLoop f n (lh.1, mid) else bisectLoop f n (mid, lh.2)

/-- The collision-free integrator of `Rectangle.step` (lines 143-176), given
the already damped/capped velocity: returns the accepted pre-clamp position
together with the updated stored velocity. -/
def integrate (agents : List (Rect K)) (xt yt : Tree K) (selfId : ℕ)
    (pos vel : K × K) (w h : K) : (K × K) × (K × K) :=
  let ov := fun p => overlapsAt agents xt yt selfId p w h
  let full := (pos.1 + vel.1, pos.2 + vel.2)
  if ov full then
    let xonly := (pos.1 + vel.1, pos.2)
    let yonly := (pos.1, pos.2 + vel.2)
    let blockedX := ov xonly
    let blockedY := ov yonly
    if blockedX = false then (xonly, (vel.1, 0))
    else if blockedY = false then (yonly, (0, vel.2))
    else
      let lh := bisectLoop (fun m => ov (pos.1 + vel.1 * m, pos.2 + vel.2 * m)) 12 (0, 1)
      let t := lh.1
      if t ≤ 1 / 100000000 then (pos, (0, 0))
      else
        let newPos := (pos.1 + vel.1 * t, pos.2 + vel.2 * t)
        let small := (1 : K) / 1000000
        let vx := if ov (pos.1 + vel.1 * (t + small), pos.2) then (0 : K) else vel.1
        let vy := if ov (pos.1, pos.2 + vel.2 * (t + small)) then (0 : K) else vel.2
        (newPos, (vx, vy))
  else (full, vel)

/-- Embedding of `np.clip(x, lo, hi) = minimum(maximum(x, lo), hi)`. -/
def clip (x lo hi : K) : K := min (max x lo) hi

/-- Embedding of `remove_agent_intervals` restricted to one tree: drop every entry whose
`data` is the given agent. -/
def removeAgentEntries (t : Tree K) (i : ℕ) : Tree K :=
  t.filter (fun e => e.data ≠ i)

/-- Embedding of `update_agent_intervals`: remove all entries of the agent from both trees,
then insert entries for the given (current) bounds. -/
def updateAgentIntervals (xt yt : Tree K) (i : ℕ) (pos : K × K) (w h : K) :
    Tree K × Tree K :=
  let iv := rectInterval pos w h
  (removeAgentEntries xt i ++ [⟨iv.1, iv.2.1, i⟩],
   removeAgentEntries yt i ++ [⟨iv.2.2.1, iv.2.2.2, i⟩])

/-- Embedding of `np.linalg.norm` of a 2-vector: `sqrt (x² + y²)`.  The square root of the
underlying float library is the explicit parameter `sqrtK`. -/
def norm2 (sqrtK : K → K) (p : K × K) : K :=
  sqrtK (p.1 ^ 2 + p.2 ^ 2)

/-- One iteration of the separation loop in `Rectangle.step` (lines 96-107):
the contribution of candidate `c` (zero for self, out-of-range or unknown
candidates).  `SEPARATION_WEIGHT = 1.0`. -/
def sepContrib (sqrtK : K → K) (agents : List (Rect K)) (selfR : Rect K)
    (c : ℕ) : K × K :=
  if c = selfR.id then (0, 0) else
  match getRect agents c with
  | none => (0, 0)
  | some o =>
      let offset := (selfR.position.1 - o.position.1, selfR.position.2 - o.position.2)
      let dist := norm2 sqrtK offset
      let minDx := (selfR.width + o.width) / 2
      let minDy := (selfR.height + o.height) / 2
      let minDist := sqrtK (minDx ^ 2 + minDy ^ 2)
      if 0 < dist ∧ dist < minDist * (3 / 2) then
        (offset.1 / dist * (1 * (1 / (dist + 1 / 100000000))),
         offset.2 / dist * (1 * (1 / (dist + 1 / 100000000))))
      else (0, 0)

/-- The accumulated `separation_vec` over the broad-phase candidate set
(a Python `set`, hence a `Finset` sum). -/
def sepVec (sqrtK : K → K) (agents : List (Rect K)) (selfR : Rect K)
    (cands : Finset ℕ) : K × K :=
  ∑ c ∈ cands, sepContrib sqrtK agents selfR c

/-- The force model of `Rectangle.step` (lines 57-118): `delta_v` as the sum
of cohesion, shrink, separation and alignment.  `COHESION_WEIGHT = 0.4`,
`SHRINK_WEIGHT = 0.6`, `ALIGN_WEIGHT = 0.2`. -/
def deltaV (sqrtK : K → K) (agents : List (Rect K)) (xt yt : Tree K)
    (selfR : Rect K) : K × K :=
  let others := agents.filter (fun a => a.id ≠ selfR.id)
  if others.isEmpty then (0, 0) else
  let lefts := agents.map fun a => a.position.1 - a.width / 2
  let rights := agents.map fun a => a.position.1 + a.width / 2
  let bottoms := agents.map fun a => a.position.2 - a.height / 2
  let tops := agents.map fun a => a.position.2 + a.height / 2
  let bboxCenter := ((listMin lefts + listMax rights) / 2,
                     (listMin bottoms + listMax tops) / 2)
  let toCenter := (bboxCenter.1 - selfR.position.1, bboxCenter.2 - selfR.position.2)
  let cohesion :=
    if 0 < norm2 sqrtK toCenter then
      (toCenter.1 / norm2 sqrtK toCenter * (4 / 10),
       toCenter.2 / norm2 sqrtK toCenter * (4 / 10))
    else (0, 0)
  let bboxHalfDiag := norm2 sqrtK ((listMax rights - listMin lefts) / 2,
                                   (listMax tops - listMin bottoms) / 2)
  let dist := norm2 sqrtK toCenter
  let shrinkStrength := (6 / 10) * (dist / (bboxHalfDiag + 1 / 100000000))
  let shrink :=
    if 0 < dist then
      (toCenter.1 / (dist + 1 / 100000000) * shrinkStrength,
       toCenter.2 / (dist + 1 / 100000000) * shrinkStrength)
    else (0, 0)
  let separation := sepVec sqrtK agents selfR
      (potentialOverlaps xt yt selfR.position selfR.width selfR.height)
  let cnt := (others.length : K)
  let sumV := others.foldl (fun acc a => (acc.1 + a.velocity.1, acc.2 + a.velocity.2))
      ((0 : K), (0 : K))
  let avgVel := (sumV.1 / cnt, sumV.2 / cnt)
  let alignV :=
    if 0 < norm2 sqrtK avgVel then
      (avgVel.1 / norm2 sqrtK avgVel * (2 / 10),
       avgVel.2 / norm2 sqrtK avgVel * (2 / 10))
    else (0, 0)
  (cohesion.1 + shrink.1 + separation.1 + alignV.1,
   cohesion.2 + shrink.2 + separation.2 + alignV.2)

/-- The velocity update of `Rectangle.step` (lines 120-127):
`velocity = (velocity + delta_v) * DAMPING`, rescale when the norm exceeds the
speed cap, snap to zero when the norm of the (possibly rescaled) velocity is
below `MIN_SPEED`.  `DAMPING = 0.95`, `MIN_SPEED = 0.01`. -/
def velUpdate (sqrtK : K → K) (v dv : K × K) (speed : K) : K × K :=
  let v1 := ((v.1 + dv.1) * (95 / 100), (v.2 + dv.2) * (95 / 100))
  let velNorm := norm2 sqrtK v1
  let v2 := if speed < velNorm then (v1.1 / velNorm * speed, v1.2 / velNorm * speed)
            else v1
  if norm2 sqrtK v2 < 1 / 100 then (0, 0) else v2

/-- Embedding of `Rectangle.step` for the agent with the given id: force model, velocity
update, the `np.allclose(vel, 0.0)` early return, the collision-free
integrator, the arena clamp, the commit of position/velocity and the interval
tree refresh. -/
def agentStep (sqrtK : K → K) (s : ModelState K) (i : ℕ) : ModelState K :=
  match getRect s.agents i with
  | none => s
  | some a =>
    let dv := deltaV sqrtK s.agents s.xTree s.yTree a
    let v := velUpdate sqrtK a.velocity dv a.speed
    if |v.1| ≤ 1 / 100000000 ∧ |v.2| ≤ 1 / 100000000 then
      { s with agents := s.agents.map fun r =>
          if r.id = i then { r with velocity := v } else r }
    else
      let pv := integrate s.agents s.xTree s.yTree i a.position v a.width a.height
      let cl := (clip pv.1.1 (a.width / 2) (s.spaceW - a.width / 2),
                 clip pv.1.2 (a.height / 2) (s.spaceH - a.height / 2))
      let trees := updateAgentIntervals s.xTree s.yTree i cl a.width a.height
      { s with
        agents := s.agents.map fun r =>
          if r.id = i then { r with position := cl, velocity := pv.2 } else r,
        xTree := trees.1,
        yTree := trees.2 }

/-- Embedding of `OptimalRectanglePackingModel.step`: step every agent of `agent_list` once,
in list order, against the shared mutable state. -/
def modelStep (sqrtK : K → K) (s : ModelState K) : ModelState K :=
  (s.agents.map Rect.id).foldl (agentStep sqrtK) s

/-- The error conditions of `spawn_rectangle`: the `ValueError` for an
oversized request (`InvalidSize`) and the final `Exception` after exhausting
all attempts (`ExhaustedAttempts`). -/
inductive SpawnError where
  | invalidSize
  | exhaustedAttempts
  deriving Repr, DecidableEq

/-- The rejection-sampling loop of `spawn_rectangle` (lines 142-151), with the
random draws `rng.random()` supplied as an explicit stream of pairs in
`[0, 1)`; one list element is consumed per attempt. -/
def spawnLoop (agents : List (Rect K)) (xt yt : Tree K) (spaceW spaceH w h : K) :
    List (K × K) → Except SpawnError (K × K)
  | [] => .error .exhaustedAttempts
  | u :: rest =>
      let minX := w / 2
      let maxX := spaceW - w / 2
      let minY := h / 2
      let maxY := spaceH - h / 2
      let pos := (u.1 * (maxX - minX) + minX, u.2 * (maxY - minY) + minY)
      let overlap := decide (∃ c ∈ potentialOverlaps xt yt pos w h,
        overlapWith agents pos w h c = true)
      if overlap then spawnLoop agents xt yt spaceW spaceH w h rest
      else .ok pos

/-- Embedding of `OptimalRectanglePackingModel.spawn_rectangle` (parameter order
`(height, width)` as in the source): reject oversized requests before any
sampling, then rejection-sample centers; returns the accepted center. -/
def spawnRectangle (agents : List (Rect K)) (xt yt : Tree K)
    (spaceW spaceH : K) (height width : K) (samples : List (K × K)) :
    Except SpawnError (K × K) :=
  if width ≥ spaceW ∨ height ≥ spaceH then .error .invalidSize
  else spawnLoop agents xt yt spaceW spaceH width height samples

/-- Exact overlap of a query box against some member of the population. -/
def overlapAnyAgent (agents : List (Rect K)) (p : K × K) (w h : K) : Prop :=
  ∃ r ∈ agents, rectsOverlap p w h r.position r.width r.height = true

/-- The center sampled by one attempt of `spawn_rectangle` from one
`(rng.random(), rng.random())` pair. -/
def sampleCenter (spaceW spaceH w h : K) (u : K × K) : K × K :=
  (u.1 * ((spaceW - w / 2) - w / 2) + w / 2,
   u.2 * ((spaceH - h / 2) - h / 2) + h / 2)

/-- Modelled from the spec claim, for comparison with `sepContrib`: the
separation contribution as the unit vector along
`R.position − O.position` scaled by `Ws_sep / distance` (no epsilon in the
denominator).  `Ws_sep = SEPARATION_WEIGHT = 1.0`. -/
def specSepContrib (sqrtK : K → K) (agents : List (Rect K)) (selfR : Rect K)
    (c : ℕ) : K × K :=
  if c = selfR.id then (0, 0) else
  match getRect agents c with
  | none => (0, 0)
  | some o =>
      let offset := (selfR.position.1 - o.position.1, selfR.position.2 - o.position.2)
      let dist := norm2 sqrtK offset
      let minDx := (selfR.width + o.width) / 2
      let minDy := (selfR.height + o.height) / 2
      let minDist := sqrtK (minDx ^ 2 + minDy ^ 2)
      if 0 < dist ∧ dist < minDist * (3 / 2) then
        (offset.1 / dist * (1 * (1 / dist)), offset.2 / dist * (1 * (1 / dist)))
      else (0, 0)

/-- Modelled from the spec claim, for comparison with `sepVec`: the summed
separation vector with the `Ws_sep / distance` scaling. -/
def specSepVec (sqrtK : K → K) (agents : List (Rect K)) (selfR : Rect K)
    (cands : Finset ℕ) : K × K :=
  ∑ c ∈ cands, specSepContrib sqrtK agents selfR c

/-- A two-rectangle configuration in a `20×20` arena: a `2×2` rectangle `A`
(id 0) at `(13,5)` moving right fast (velocity `(10,0)`, speed cap `100`) and
a stationary `2×6` rectangle `B` (id 1) at `(19,5)` touching the right wall.
Both interval trees index the current bounds.  No pair overlaps. -/
noncomputable def clampState : ModelState ℝ :=
  ⟨[⟨0, (13, 5), (10, 0), 2, 2, 100⟩, ⟨1, (19, 5), (0, 0), 2, 6, 1⟩],
   [⟨12, 14, 0⟩, ⟨18, 20, 1⟩], [⟨4, 6, 0⟩, ⟨2, 8, 1⟩], 20, 20⟩

/-- The x-velocity of rectangle `A` after the force model and velocity update
in the first step on `clampState` (cohesion `0.4` plus shrink, damped). -/
noncomputable def wA : ℝ :=
  (10 + (2 / 5 + 27 / (5 * ((3 + 1 / 100000000) * (5 + 1 / 100000000))))) *
    (19 / 20)

/-- The state `clampState` after rectangle `A`'s step: the integrator accepted the
collision-free position `(13 + wA, 5)` beyond the right wall, and the arena
clamp pulled it back to `(19, 5)` — exactly onto `B` — without an overlap
re-check. -/
noncomputable def clampState1 : ModelState ℝ :=
  ⟨[⟨0, (19, 5), (wA, 0), 2, 2, 100⟩, ⟨1, (19, 5), (0, 0), 2, 6, 1⟩],
   [⟨18, 20, 1⟩, ⟨18, 20, 0⟩], [⟨2, 8, 1⟩, ⟨4, 6, 0⟩], 20, 20⟩

/-- The state `clampState1` after rectangle `B`'s step: `B` is pinned (all probes
collide with `A`), so the bisection returns `t = 0`, `B` stays at `(19, 5)`
and its velocity is zeroed.  The two rectangles still overlap. -/
noncomputable def clampState2 : ModelState ℝ :=
  ⟨[⟨0, (19, 5), (wA, 0), 2, 2, 100⟩, ⟨1, (19, 5), (0, 0), 2, 6, 1⟩],
   [⟨18, 20, 0⟩, ⟨18, 20, 1⟩], [⟨4, 6, 0⟩, ⟨2, 8, 1⟩], 20, 20⟩

/-- Containment of a rectangle's bounds in the arena `[0, W] × [0, H]`. -/
def inArena (r : Rect K) (W H : K) : Prop :=
  0 ≤ r.position.1 - r.width / 2 ∧ r.position.1 + r.width / 2 ≤ W ∧
  0 ≤ r.position.2 - r.height / 2 ∧ r.position.2 + r.height / 2 ≤ H

/-! ## Basic characterizations -/

theorem entryHit_iff {e : Entry K} {lo hi : K} :
    entryHit e lo hi = true ↔ e.lo < hi ∧ lo < e.hi := by
  simp [entryHit]

theorem rectsOverlap_iff {pos1 : K × K} {w1 h1 : K} {pos2 : K × K} {w2 h2 : K} :
    rectsOverlap pos1 w1 h1 pos2 w2 h2 = true ↔
      (pos2.1 - w2 / 2 < pos1.1 + w1 / 2 ∧ pos1.1 - w1 / 2 < pos2.1 + w2 / 2) ∧
      (pos2.2 - h2 / 2 < pos1.2 + h1 / 2 ∧ pos1.2 - h1 / 2 < pos2.2 + h2 / 2) := by
  simp only [rectsOverlap, decide_eq_true_eq]
  push_neg
  tauto

theorem mem_potentialOverlaps {xt yt : Tree K} {pos : K × K} {w h : K} {a : ℕ} :
    a ∈ potentialOverlaps xt yt pos w h ↔
      (∃ e ∈ xt, entryHit e (pos.1 - w / 2) (pos.1 + w / 2) = true ∧ e.data = a) ∧
      (∃ e ∈ yt, entryHit e (pos.2 - h / 2) (pos.2 + h / 2) = true ∧ e.data = a) := by
  simp only [potentialOverlaps, rectInterval, Finset.mem_inter, List.mem_toFinset,
    List.mem_map, List.mem_filter]
  constructor
  · rintro ⟨⟨ex, ⟨hex, hhx⟩, hdx⟩, ⟨ey, ⟨hey, hhy⟩, hdy⟩⟩
    exact ⟨⟨ex, hex, hhx, hdx⟩, ⟨ey, hey, hhy, hdy⟩⟩
  · rintro ⟨⟨ex, hex, hhx, hdx⟩, ⟨ey, hey, hhy, hdy⟩⟩
    exact ⟨⟨ex, ⟨hex, hhx⟩, hdx⟩, ⟨ey, ⟨hey, hhy⟩, hdy⟩⟩

/-! ## C3: the broad phase has no false negatives -/

theorem broadphase_sound (xt yt : Tree K) (o : Rect K)
    (pos : K × K) (w h : K)
    (hx : (⟨o.position.1 - o.width / 2, o.position.1 + o.width / 2, o.id⟩ : Entry K) ∈ xt)
    (hy : (⟨o.position.2 - o.height / 2, o.position.2 + o.height / 2, o.id⟩ : Entry K) ∈ yt)
    (hov : rectsOverlap pos w h o.position o.width o.height = true) :
    o.id ∈ potentialOverlaps xt yt pos w h := by
  rw [rectsOverlap_iff] at hov
  obtain ⟨⟨hx1, hx2⟩, ⟨hy1, hy2⟩⟩ := hov
  rw [mem_potentialOverlaps]
  refine ⟨⟨_, hx, ?_, rfl⟩, ⟨_, hy, ?_, rfl⟩⟩
  · exact entryHit_iff.mpr ⟨hx1, hx2⟩
  · exact entryHit_iff.mpr ⟨hy1, hy2⟩

/-- C3: for every query box and every rectangle `O` whose current bounds are
indexed in both interval trees, if the exact overlap test `rects_overlap`
between the query box and `O`'s bounds returns true, then `O` is a member of
the candidate set returned by `potential_overlaps_for_rect`. -/
theorem broadphase_no_false_negatives (xt yt : Tree K) (o : Rect K)
    (pos : K × K) (w h : K)
    (hx : (⟨o.position.1 - o.width / 2, o.position.1 + o.width / 2, o.id⟩ : Entry K) ∈ xt)
    (hy : (⟨o.position.2 - o.height / 2, o.position.2 + o.height / 2, o.id⟩ : Entry K) ∈ yt)
    (hov : rectsOverlap pos w h o.position o.width o.height = true) :
    o.id ∈ potentialOverlaps xt yt pos w h :=
  broadphase_sound xt yt o pos w h hx hy hov

/-- Witness for C3: a concrete indexed rectangle at `(3,3)` of size `2×2`
truly overlaps the query box at `(4,3)` of size `2×2` and is indeed in the
candidate set. -/
theorem broadphase_no_false_negatives_witness :
    (1 : ℕ) ∈ potentialOverlaps ([⟨2, 4, 1⟩] : Tree ℚ) ([⟨2, 4, 1⟩] : Tree ℚ)
      ((4 : ℚ), 3) 2 2 :=
  broadphase_no_false_negatives _ _ ⟨1, (3, 3), (0, 0), 2, 2, 1⟩ _ _ _
    (by norm_num) (by norm_num) (by norm_num [rectsOverlap])

/-! ## C9: a paired index update restores all query results -/

omit [LinearOrderedField K] in
theorem removeAgentEntries_update (t : Tree K) (i : ℕ) (e : Entry K)
    (he : e.data = i) :
    removeAgentEntries (removeAgentEntries t i ++ [e]) i = removeAgentEntries t i := by
  simp [removeAgentEntries, List.filter_append, he, List.filter_filter]

theorem exists_hit_restore (t : Tree K) (i a : ℕ) (lo hi qlo qhi : K)
    (h1 : ∀ e ∈ t, e.data = i → e.lo = lo ∧ e.hi = hi)
    (h0 : ∃ e ∈ t, e.data = i) :
    (∃ e ∈ removeAgentEntries t i ++ [⟨lo, hi, i⟩],
        entryHit e qlo qhi = true ∧ e.data = a) ↔
      (∃ e ∈ t, entryHit e qlo qhi = true ∧ e.data = a) := by
  constructor
  · rintro ⟨e, he, hh, hd⟩
    rcases List.mem_append.1 he with h | h
    · exact ⟨e, (List.mem_filter.1 h).1, hh, hd⟩
    · obtain ⟨e0, he0, hd0⟩ := h0
      obtain ⟨hl0, hh0⟩ := h1 e0 he0 hd0
      rw [List.mem_singleton] at h
      subst h
      refine ⟨e0, he0, ?_, ?_⟩
      · rw [entryHit_iff, hl0, hh0]
        exact entryHit_iff.1 hh
      · exact hd0.trans hd
  · rintro ⟨e, he, hh, hd⟩
    by_cases hdi : e.data = i
    · obtain ⟨hl0, hh0⟩ := h1 e he hdi
      refine ⟨⟨lo, hi, i⟩, List.mem_append.2 (Or.inr (List.mem_singleton.2 rfl)), ?_, ?_⟩
      · rw [entryHit_iff]
        rw [entryHit_iff, hl0, hh0] at hh
        exact hh
      · exact hdi ▸ hd
    · refine ⟨e, List.mem_append.2 (Or.inl ?_), hh, hd⟩
      exact List.mem_filter.2 ⟨he, by simpa using hdi⟩

/-- C9: if the index holds the id `i` exactly at the bounds derived from
`(p1, w1, h1)`, then `update(i, b1, b2)` followed by `update(i, b2, b1)`
restores the index observably: every broad-phase query returns the same
candidates as before the first update. -/
theorem index_update_restores (xt yt : Tree K) (i : ℕ)
    (p1 : K × K) (w1 h1 : K) (p2 : K × K) (w2 h2 : K)
    (hx : ∀ e ∈ xt, e.data = i → e.lo = p1.1 - w1 / 2 ∧ e.hi = p1.1 + w1 / 2)
    (hy : ∀ e ∈ yt, e.data = i → e.lo = p1.2 - h1 / 2 ∧ e.hi = p1.2 + h1 / 2)
    (hx0 : ∃ e ∈ xt, e.data = i) (hy0 : ∃ e ∈ yt, e.data = i)
    (q : K × K) (qw qh : K) (a : ℕ) :
    (a ∈ potentialOverlaps
        (updateAgentIntervals (updateAgentIntervals xt yt i p2 w2 h2).1
          (updateAgentIntervals xt yt i p2 w2 h2).2 i p1 w1 h1).1
        (updateAgentIntervals (updateAgentIntervals xt yt i p2 w2 h2).1
          (updateAgentIntervals xt yt i p2 w2 h2).2 i p1 w1 h1).2
        q qw qh) ↔
      a ∈ potentialOverlaps xt yt q qw qh := by
  have ex : (updateAgentIntervals (updateAgentIntervals xt yt i p2 w2 h2).1
      (updateAgentIntervals xt yt i p2 w2 h2).2 i p1 w1 h1).1 =
      removeAgentEntries xt i ++ [⟨p1.1 - w1 / 2, p1.1 + w1 / 2, i⟩] := by
    simp only [updateAgentIntervals, rectInterval]
    rw [removeAgentEntries_update xt i ⟨p2.1 - w2 / 2, p2.1 + w2 / 2, i⟩ rfl]
  have ey : (updateAgentIntervals (updateAgentIntervals xt yt i p2 w2 h2).1
      (updateAgentIntervals xt yt i p2 w2 h2).2 i p1 w1 h1).2 =
      removeAgentEntries yt i ++ [⟨p1.2 - h1 / 2, p1.2 + h1 / 2, i⟩] := by
    simp only [updateAgentIntervals, rectInterval]
    rw [removeAgentEntries_update yt i ⟨p2.2 - h2 / 2, p2.2 + h2 / 2, i⟩ rfl]
  rw [ex, ey, mem_potentialOverlaps, mem_potentialOverlaps]
  exact and_congr (exists_hit_restore xt i a _ _ _ _ hx hx0)
    (exists_hit_restore yt i a _ _ _ _ hy hy0)

/-- Witness for C9 at a concrete index state: id `5` indexed at the bounds of
a `2×2` box centered at `(3,2)`, moved to `(10,10)` and back. -/
theorem index_update_restores_witness :
    ((5 : ℕ) ∈ potentialOverlaps
        (updateAgentIntervals
          (updateAgentIntervals ([⟨2, 4, 5⟩] : Tree ℚ) ([⟨1, 3, 5⟩] : Tree ℚ)
            5 (10, 10) 2 2).1
          (updateAgentIntervals ([⟨2, 4, 5⟩] : Tree ℚ) ([⟨1, 3, 5⟩] : Tree ℚ)
            5 (10, 10) 2 2).2 5 (3, 2) 2 2).1
        (updateAgentIntervals
          (updateAgentIntervals ([⟨2, 4, 5⟩] : Tree ℚ) ([⟨1, 3, 5⟩] : Tree ℚ)
            5 (10, 10) 2 2).1
          (updateAgentIntervals ([⟨2, 4, 5⟩] : Tree ℚ) ([⟨1, 3, 5⟩] : Tree ℚ)
            5 (10, 10) 2 2).2 5 (3, 2) 2 2).2
        ((3 : ℚ), 2) 2 2 ↔
      (5 : ℕ) ∈ potentialOverlaps ([⟨2, 4, 5⟩] : Tree ℚ) ([⟨1, 3, 5⟩] : Tree ℚ)
        ((3 : ℚ), 2) 2 2) :=
  index_update_restores [⟨2, 4, 5⟩] [⟨1, 3, 5⟩] 5 (3, 2) 2 2 (10, 10) 2 2
    (by intro e he hd; simp at he; subst he; norm_num)
    (by intro e he hd; simp at he; subst he; norm_num)
    ⟨⟨2, 4, 5⟩, by simp, rfl⟩ ⟨⟨1, 3, 5⟩, by simp, rfl⟩ (3, 2) 2 2 5

/-! ## C4 and C5: the collision-free integrator -/

/-- Invariant of the bisection loop: the lower end of the interval is either
still the untested initial `0` or a probed collision-free fraction. -/
theorem bisectLoop_low_free (f : K → Bool) (n : ℕ) :
    ∀ low high : K, (low = 0 ∨ f low = false) →
      (bisectLoop f n (low, high)).1 = 0 ∨
        f ((bisectLoop f n (low, high)).1) = false := by
  induction n with
  | zero => intro low high h; exact h
  | succ n ih =>
      intro low high h
      simp only [bisectLoop]
      by_cases hm : f ((low + high) / 2) = true
      · simp only [hm, if_true]
        exact ih low ((low + high) / 2) h
      · simp only [hm, if_false]
        exact ih ((low + high) / 2) high (Or.inr (by simpa using hm))

/-- If every probed fraction in `(0, 1]` collides, the bisection keeps
`low = 0` throughout. -/
theorem bisectLoop_low_zero (f : K → Bool)
    (hf : ∀ m : K, 0 < m → m ≤ 1 → f m = true) (n : ℕ) :
    ∀ high : K, 0 < high → high ≤ 1 → (bisectLoop f n (0, high)).1 = 0 := by
  induction n with
  | zero => intro high _ _; rfl
  | succ n ih =>
      intro high h0 h1
      have hmid0 : (0 : K) < (0 + high) / 2 := by linarith
      have hmid1 : (0 + high) / 2 ≤ 1 := by linarith
      simp only [bisectLoop, hf _ hmid0 hmid1, if_true]
      exact ih ((0 + high) / 2) hmid0 hmid1

/-- C4: when the full move and both single-axis moves are blocked, the
integrator bisects the travel fraction `t` along the original velocity in 12
halving iterations; if the resulting `t ≤ 1e-8` the position is kept and the
velocity zeroed, otherwise the accepted pre-clamp position is
`position + t·velocity` and it passes the exact-overlap check against all
index candidates. -/
theorem integrate_bisection (agents : List (Rect K)) (xt yt : Tree K) (i : ℕ)
    (pos vel : K × K) (w h : K)
    (hf : overlapsAt agents xt yt i (pos.1 + vel.1, pos.2 + vel.2) w h = true)
    (hx : overlapsAt agents xt yt i (pos.1 + vel.1, pos.2) w h = true)
    (hy : overlapsAt agents xt yt i (pos.1, pos.2 + vel.2) w h = true) :
    ((bisectLoop (fun m => overlapsAt agents xt yt i
          (pos.1 + vel.1 * m, pos.2 + vel.2 * m) w h) 12 (0, 1)).1 ≤ 1 / 100000000 →
        integrate agents xt yt i pos vel w h = (pos, (0, 0))) ∧
      (1 / 100000000 < (bisectLoop (fun m => overlapsAt agents xt yt i
          (pos.1 + vel.1 * m, pos.2 + vel.2 * m) w h) 12 (0, 1)).1 →
        (integrate agents xt yt i pos vel w h).1 =
          (pos.1 + vel.1 * (bisectLoop (fun m => overlapsAt agents xt yt i
            (pos.1 + vel.1 * m, pos.2 + vel.2 * m) w h) 12 (0, 1)).1,
           pos.2 + vel.2 * (bisectLoop (fun m => overlapsAt agents xt yt i
            (pos.1 + vel.1 * m, pos.2 + vel.2 * m) w h) 12 (0, 1)).1) ∧
          overlapsAt agents xt yt i
            ((integrate agents xt yt i pos vel w h).1) w h = false) := by
  simp only [integrate, hf, hx, hy, if_true,
    show (true = false) = False from by simp, if_false]
  set t := (bisectLoop (fun m => overlapsAt agents xt yt i
      (pos.1 + vel.1 * m, pos.2 + vel.2 * m) w h) 12 (0, 1)).1 with ht
  constructor
  · intro hle
    simp only [if_pos hle]
  · intro hgt
    have hnle : ¬ t ≤ 1 / 100000000 := not_le_of_lt hgt
    simp only [if_neg hnle]
    refine ⟨trivial, ?_⟩
    have hfree := bisectLoop_low_free
      (fun m => overlapsAt agents xt yt i (pos.1 + vel.1 * m, pos.2 + vel.2 * m) w h)
      12 0 1 (Or.inl rfl)
    rw [← ht] at hfree
    rcases hfree with h0 | hfree
    · exfalso
      rw [h0] at hgt
      norm_num at hgt
    · exact hfree

/-- Witness for C4: a `2×2` rectangle centered at `(5,5)` with velocity
`(1,1)`, fully inside an indexed stationary `4×4` blocker at `(5,5)`; every
probe collides, the bisected `t` is `0` and the integrator keeps the position
and zeroes the velocity. -/
theorem integrate_bisection_witness :
    integrate ([⟨0, (5, 5), (1, 1), 2, 2, 1⟩, ⟨1, (5, 5), (0, 0), 4, 4, 1⟩] :
        List (Rect ℚ))
      [⟨4, 6, 0⟩, ⟨3, 7, 1⟩] [⟨4, 6, 0⟩, ⟨3, 7, 1⟩] 0 (5, 5) (1, 1) 2 2 =
      ((5, 5), (0, 0)) := by
  have hov : ∀ x y : ℚ, 4 ≤ x → x ≤ 6 → 4 ≤ y → y ≤ 6 →
      overlapsAt ([⟨0, (5, 5), (1, 1), 2, 2, 1⟩, ⟨1, (5, 5), (0, 0), 4, 4, 1⟩] :
          List (Rect ℚ))
        [⟨4, 6, 0⟩, ⟨3, 7, 1⟩] [⟨4, 6, 0⟩, ⟨3, 7, 1⟩] 0 (x, y) 2 2 = true := by
    intro x y h1 h2 h3 h4
    rw [overlapsAt, decide_eq_true_eq]
    refine ⟨1, ?_, by norm_num, ?_⟩
    · rw [mem_potentialOverlaps]
      refine ⟨⟨⟨3, 7, 1⟩, by simp, ?_, rfl⟩, ⟨⟨3, 7, 1⟩, by simp, ?_, rfl⟩⟩ <;>
        · rw [entryHit_iff]; dsimp only; constructor <;> linarith
    · show rectsOverlap ((x, y) : ℚ × ℚ) 2 2 ((5 : ℚ), 5) 4 4 = true
      rw [rectsOverlap_iff]
      dsimp only
      refine ⟨⟨?_, ?_⟩, ?_, ?_⟩ <;> linarith
  have happ := integrate_bisection
    ([⟨0, (5, 5), (1, 1), 2, 2, 1⟩, ⟨1, (5, 5), (0, 0), 4, 4, 1⟩] : List (Rect ℚ))
    [⟨4, 6, 0⟩, ⟨3, 7, 1⟩] [⟨4, 6, 0⟩, ⟨3, 7, 1⟩] 0 (5, 5) (1, 1) 2 2
    (hov _ _ (by dsimp; norm_num) (by dsimp; norm_num) (by dsimp; norm_num)
      (by dsimp; norm_num))
    (hov _ _ (by dsimp; norm_num) (by dsimp; norm_num) (by dsimp; norm_num)
      (by dsimp; norm_num))
    (hov _ _ (by dsimp; norm_num) (by dsimp; norm_num) (by dsimp; norm_num)
      (by dsimp; norm_num))
  have hzero : (bisectLoop (fun m => overlapsAt
      ([⟨0, (5, 5), (1, 1), 2, 2, 1⟩, ⟨1, (5, 5), (0, 0), 4, 4, 1⟩] : List (Rect ℚ))
      [⟨4, 6, 0⟩, ⟨3, 7, 1⟩] [⟨4, 6, 0⟩, ⟨3, 7, 1⟩] 0
      (((5 : ℚ), (5 : ℚ)).1 + ((1 : ℚ), (1 : ℚ)).1 * m,
       ((5 : ℚ), (5 : ℚ)).2 + ((1 : ℚ), (1 : ℚ)).2 * m) 2 2) 12 (0, 1)).1 = 0 := by
    refine bisectLoop_low_zero _ ?_ 12 1 (by norm_num) (by norm_num)
    intro m hm0 hm1
    exact hov _ _ (by dsimp; linarith) (by dsimp; linarith) (by dsimp; linarith)
      (by dsimp; linarith)
  exact happ.1 (by rw [hzero]; norm_num)

/-- C5: when the full move is blocked, the integrator first tries the x-only
move (accepting it and zeroing the stored y-velocity when it is free), and
otherwise the y-only move (accepting it and zeroing the stored x-velocity
when it is free). -/
theorem integrate_axis_decomposition (agents : List (Rect K)) (xt yt : Tree K)
    (i : ℕ) (pos vel : K × K) (w h : K)
    (hf : overlapsAt agents xt yt i (pos.1 + vel.1, pos.2 + vel.2) w h = true) :
    (overlapsAt agents xt yt i (pos.1 + vel.1, pos.2) w h = false →
        integrate agents xt yt i pos vel w h =
          ((pos.1 + vel.1, pos.2), (vel.1, 0))) ∧
      (overlapsAt agents xt yt i (pos.1 + vel.1, pos.2) w h = true →
        overlapsAt agents xt yt i (pos.1, pos.2 + vel.2) w h = false →
        integrate agents xt yt i pos vel w h =
          ((pos.1, pos.2 + vel.2), (0, vel.2))) := by
  constructor
  · intro hxf
    simp only [integrate, hf, hxf, if_true]
  · intro hxb hyf
    simp only [integrate, hf, hxb, hyf, if_true,
      show (true = false) = False from by simp, if_false]

/-- Witness for C5: a `2×2` rectangle at `(5,5)` with velocity `(2,2)` whose
full move collides with an indexed `4×4` blocker at `(7,8)`, while the x-only
move is free: the integrator accepts the x-only move and zeroes the stored
y-velocity. -/
theorem integrate_axis_decomposition_witness :
    integrate ([⟨0, (5, 5), (2, 2), 2, 2, 1⟩, ⟨1, (7, 8), (0, 0), 4, 4, 1⟩] :
        List (Rect ℚ))
      [⟨4, 6, 0⟩, ⟨5, 9, 1⟩] [⟨4, 6, 0⟩, ⟨6, 10, 1⟩] 0 (5, 5) (2, 2) 2 2 =
      ((7, 5), (2, 0)) := by
  have hfull : overlapsAt
      ([⟨0, (5, 5), (2, 2), 2, 2, 1⟩, ⟨1, (7, 8), (0, 0), 4, 4, 1⟩] : List (Rect ℚ))
      [⟨4, 6, 0⟩, ⟨5, 9, 1⟩] [⟨4, 6, 0⟩, ⟨6, 10, 1⟩] 0
      (((5 : ℚ), (5 : ℚ)).1 + ((2 : ℚ), (2 : ℚ)).1,
       ((5 : ℚ), (5 : ℚ)).2 + ((2 : ℚ), (2 : ℚ)).2) 2 2 = true := by
    rw [overlapsAt, decide_eq_true_eq]
    refine ⟨1, ?_, by norm_num, ?_⟩
    · rw [mem_potentialOverlaps]
      exact ⟨⟨⟨5, 9, 1⟩, by simp, by rw [entryHit_iff]; dsimp; norm_num, rfl⟩,
             ⟨⟨6, 10, 1⟩, by simp, by rw [entryHit_iff]; dsimp; norm_num, rfl⟩⟩
    · show rectsOverlap (((5 : ℚ), (5 : ℚ)).1 + ((2 : ℚ), (2 : ℚ)).1,
        ((5 : ℚ), (5 : ℚ)).2 + ((2 : ℚ), (2 : ℚ)).2) 2 2 ((7 : ℚ), 8) 4 4 = true
      rw [rectsOverlap_iff]
      dsimp
      norm_num
  have hxfree : overlapsAt
      ([⟨0, (5, 5), (2, 2), 2, 2, 1⟩, ⟨1, (7, 8), (0, 0), 4, 4, 1⟩] : List (Rect ℚ))
      [⟨4, 6, 0⟩, ⟨5, 9, 1⟩] [⟨4, 6, 0⟩, ⟨6, 10, 1⟩] 0
      (((5 : ℚ), (5 : ℚ)).1 + ((2 : ℚ), (2 : ℚ)).1, ((5 : ℚ), (5 : ℚ)).2) 2 2 =
      false := by
    rw [overlapsAt]
    norm_num [potentialOverlaps, rectInterval, entryHit, List.filter]
  have happ := integrate_axis_decomposition
    ([⟨0, (5, 5), (2, 2), 2, 2, 1⟩, ⟨1, (7, 8), (0, 0), 4, 4, 1⟩] : List (Rect ℚ))
    [⟨4, 6, 0⟩, ⟨5, 9, 1⟩] [⟨4, 6, 0⟩, ⟨6, 10, 1⟩] 0 (5, 5) (2, 2) 2 2 hfull
  rw [happ.1 hxfree]
  norm_num

/-! ## C8: the spawner -/

omit [LinearOrderedField K] in
theorem getRect_eq_some {agents : List (Rect K)} {i : ℕ} {r : Rect K}
    (h : getRect agents i = some r) : r ∈ agents ∧ r.id = i := by
  constructor
  · exact List.mem_of_find?_eq_some h
  · have := List.find?_some h
    simpa using this

omit [LinearOrderedField K] in
theorem getRect_of_mem {agents : List (Rect K)} {r : Rect K}
    (hmem : r ∈ agents) (hnd : (agents.map Rect.id).Nodup) :
    getRect agents r.id = some r := by
  induction agents with
  | nil => cases hmem
  | cons a l ih =>
      rw [List.map_cons, List.nodup_cons] at hnd
      rcases List.mem_cons.1 hmem with h | h
      · subst h
        rw [getRect]
        exact List.find?_cons_of_pos _ (by simp)
      · have hne : a.id ≠ r.id := by
          intro he
          exact hnd.1 (he ▸ List.mem_map_of_mem Rect.id h)
        rw [getRect, List.find?_cons_of_neg _ (by simpa using hne)]
        exact ih h hnd.2

/-- Under a complete, duplicate-free index, the candidate-based overlap check
of `spawn_rectangle` agrees with overlap against any existing rectangle. -/
theorem spawnCheck_iff (agents : List (Rect K)) (xt yt : Tree K)
    (p : K × K) (w h : K)
    (hidx : ∀ r ∈ agents,
      (⟨r.position.1 - r.width / 2, r.position.1 + r.width / 2, r.id⟩ : Entry K) ∈ xt ∧
      (⟨r.position.2 - r.height / 2, r.position.2 + r.height / 2, r.id⟩ : Entry K) ∈ yt)
    (hnd : (agents.map Rect.id).Nodup) :
    (∃ c ∈ potentialOverlaps xt yt p w h, overlapWith agents p w h c = true) ↔
      overlapAnyAgent agents p w h := by
  constructor
  · rintro ⟨c, _, hw⟩
    rw [overlapWith] at hw
    rcases heq : getRect agents c with _ | o
    · rw [heq] at hw; cases hw
    · rw [heq] at hw
      exact ⟨o, (getRect_eq_some heq).1, hw⟩
  · rintro ⟨r, hr, hov⟩
    refine ⟨r.id, broadphase_sound xt yt r p w h
      (hidx r hr).1 (hidx r hr).2 hov, ?_⟩
    rw [overlapWith, getRect_of_mem hr hnd]
    exact hov

/-- Full characterization of the rejection-sampling loop: `ExhaustedAttempts`
exactly when every draw overlaps; a success comes from the first
non-overlapping draw; and conversely the first non-overlapping draw is
accepted. -/
theorem spawnLoop_char (agents : List (Rect K)) (xt yt : Tree K)
    (spaceW spaceH w h : K)
    (hidx : ∀ r ∈ agents,
      (⟨r.position.1 - r.width / 2, r.position.1 + r.width / 2, r.id⟩ : Entry K) ∈ xt ∧
      (⟨r.position.2 - r.height / 2, r.position.2 + r.height / 2, r.id⟩ : Entry K) ∈ yt)
    (hnd : (agents.map Rect.id).Nodup) :
    ∀ samples : List (K × K),
      (spawnLoop agents xt yt spaceW spaceH w h samples =
          .error .exhaustedAttempts ↔
        ∀ u ∈ samples,
          overlapAnyAgent agents (sampleCenter spaceW spaceH w h u) w h) ∧
      (∀ p, spawnLoop agents xt yt spaceW spaceH w h samples = .ok p →
        ∃ pre u post, samples = pre ++ u :: post ∧
          p = sampleCenter spaceW spaceH w h u ∧
          (∀ v ∈ pre,
            overlapAnyAgent agents (sampleCenter spaceW spaceH w h v) w h) ∧
          ¬ overlapAnyAgent agents p w h) ∧
      (∀ (pre : List (K × K)) (u : K × K) (post : List (K × K)),
        samples = pre ++ u :: post →
        (∀ v ∈ pre,
          overlapAnyAgent agents (sampleCenter spaceW spaceH w h v) w h) →
        ¬ overlapAnyAgent agents (sampleCenter spaceW spaceH w h u) w h →
        spawnLoop agents xt yt spaceW spaceH w h samples =
          .ok (sampleCenter spaceW spaceH w h u)) := by
  intro samples
  induction samples with
  | nil =>
      refine ⟨by simp [spawnLoop], by simp [spawnLoop], ?_⟩
      intro pre u post habs
      exact absurd habs (by simp)
  | cons s rest ih =>
      have hcent : ((s.1 * ((spaceW - w / 2) - w / 2) + w / 2,
          s.2 * ((spaceH - h / 2) - h / 2) + h / 2) : K × K) =
          sampleCenter spaceW spaceH w h s := rfl
      by_cases hq : overlapAnyAgent agents (sampleCenter spaceW spaceH w h s) w h
      · have hdec : decide (∃ c ∈ potentialOverlaps xt yt
            (sampleCenter spaceW spaceH w h s) w h,
            overlapWith agents (sampleCenter spaceW spaceH w h s) w h c = true) =
            true := by
          rw [decide_eq_true_eq]
          exact (spawnCheck_iff agents xt yt _ w h hidx hnd).2 hq
        have hstep : spawnLoop agents xt yt spaceW spaceH w h (s :: rest) =
            spawnLoop agents xt yt spaceW spaceH w h rest := by
          rw [spawnLoop, hcent, hdec]
          simp
        refine ⟨?_, ?_, ?_⟩
        · rw [hstep]
          constructor
          · intro he u hu
            rcases List.mem_cons.1 hu with rfl | hu
            · exact hq
            · exact (ih.1.1 he) u hu
          · intro hall
            exact ih.1.2 (fun u hu => hall u (List.mem_cons_of_mem s hu))
        · intro p hp
          rw [hstep] at hp
          obtain ⟨pre, u, post, hsplit, hpc, hpre, hfree⟩ := ih.2.1 p hp
          exact ⟨s :: pre, u, post, by rw [hsplit]; rfl, hpc,
            fun v hv => by
              rcases List.mem_cons.1 hv with rfl | hv
              · exact hq
              · exact hpre v hv, hfree⟩
        · intro pre u post hsplit hpre hfree
          rcases pre with _ | ⟨p0, pre'⟩
          · simp only [List.nil_append] at hsplit
            cases hsplit
            exact absurd hq hfree
          · rw [List.cons_append] at hsplit
            injection hsplit with h1 h2
            rw [hstep]
            exact ih.2.2 pre' u post h2
              (fun v hv => hpre v (List.mem_cons_of_mem p0 hv)) hfree
      · have hdec : decide (∃ c ∈ potentialOverlaps xt yt
            (sampleCenter spaceW spaceH w h s) w h,
            overlapWith agents (sampleCenter spaceW spaceH w h s) w h c = true) =
            false := by
          rw [decide_eq_false_iff_not]
          intro hc
          exact hq ((spawnCheck_iff agents xt yt _ w h hidx hnd).1 hc)
        have hstep : spawnLoop agents xt yt spaceW spaceH w h (s :: rest) =
            .ok (sampleCenter spaceW spaceH w h s) := by
          rw [spawnLoop, hcent, hdec]
          simp
        refine ⟨?_, ?_, ?_⟩
        · rw [hstep]
          constructor
          · intro he; cases he
          · intro hall
            exact absurd (hall s (List.mem_cons_self s rest)) hq
        · intro p hp
          rw [hstep] at hp
          injection hp with hp
          exact ⟨[], s, rest, rfl, hp.symm, by simp, hp ▸ hq⟩
        · intro pre u post hsplit hpre hfree
          rcases pre with _ | ⟨p0, pre'⟩
          · simp only [List.nil_append] at hsplit
            cases hsplit
            exact hstep
          · rw [List.cons_append] at hsplit
            injection hsplit with h1 _
            refine absurd ?_ hq
            rw [h1]
            exact hpre p0 (List.mem_cons_self p0 pre')

/-- C8: `spawn_rectangle` raises `InvalidSize` immediately (for every sample
stream) when the requested size reaches an arena dimension; otherwise each
sampled center has its bounds inside the arena, `ExhaustedAttempts` is raised
exactly when all draws overlap, a success is the first overlap-free sampled
center, and the first overlap-free draw is accepted. -/
theorem spawn_characterization (agents : List (Rect K)) (xt yt : Tree K)
    (spaceW spaceH height width : K) (samples : List (K × K))
    (hidx : ∀ r ∈ agents,
      (⟨r.position.1 - r.width / 2, r.position.1 + r.width / 2, r.id⟩ : Entry K) ∈ xt ∧
      (⟨r.position.2 - r.height / 2, r.position.2 + r.height / 2, r.id⟩ : Entry K) ∈ yt)
    (hnd : (agents.map Rect.id).Nodup)
    (hs : ∀ u ∈ samples, 0 ≤ u.1 ∧ u.1 < 1 ∧ 0 ≤ u.2 ∧ u.2 < 1) :
    ((spaceW ≤ width ∨ spaceH ≤ height) →
        spawnRectangle agents xt yt spaceW spaceH height width samples =
          .error .invalidSize) ∧
      (width < spaceW → height < spaceH →
        (∀ u ∈ samples,
          0 ≤ (sampleCenter spaceW spaceH width height u).1 - width / 2 ∧
          (sampleCenter spaceW spaceH width height u).1 + width / 2 ≤ spaceW ∧
          0 ≤ (sampleCenter spaceW spaceH width height u).2 - height / 2 ∧
          (sampleCenter spaceW spaceH width height u).2 + height / 2 ≤ spaceH) ∧
        (spawnRectangle agents xt yt spaceW spaceH height width samples =
            .error .exhaustedAttempts ↔
          ∀ u ∈ samples, overlapAnyAgent agents
            (sampleCenter spaceW spaceH width height u) width height) ∧
        (∀ p, spawnRectangle agents xt yt spaceW spaceH height width samples =
            .ok p →
          ∃ pre u post, samples = pre ++ u :: post ∧
            p = sampleCenter spaceW spaceH width height u ∧
            (∀ v ∈ pre, overlapAnyAgent agents
              (sampleCenter spaceW spaceH width height v) width height) ∧
            ¬ overlapAnyAgent agents p width height) ∧
        (∀ (pre : List (K × K)) (u : K × K) (post : List (K × K)),
          samples = pre ++ u :: post →
          (∀ v ∈ pre, overlapAnyAgent agents
            (sampleCenter spaceW spaceH width height v) width height) →
          ¬ overlapAnyAgent agents
            (sampleCenter spaceW spaceH width height u) width height →
          spawnRectangle agents xt yt spaceW spaceH height width samples =
            .ok (sampleCenter spaceW spaceH width height u))) := by
  constructor
  · intro hbig
    rw [spawnRectangle, if_pos]
    rcases hbig with hb | hb
    · exact Or.inl hb
    · exact Or.inr hb
  · intro hw hh
    have hcond : ¬ (width ≥ spaceW ∨ height ≥ spaceH) := by
      push_neg
      exact ⟨hw, hh⟩
    have hrw : spawnRectangle agents xt yt spaceW spaceH height width samples =
        spawnLoop agents xt yt spaceW spaceH width height samples := by
      rw [spawnRectangle, if_neg hcond]
    have hchar := spawnLoop_char agents xt yt spaceW spaceH width height
      hidx hnd samples
    refine ⟨?_, ?_, ?_, ?_⟩
    · intro u hu
      obtain ⟨h1, h2, h3, h4⟩ := hs u hu
      rw [sampleCenter]
      dsimp only
      have hwW : width / 2 ≤ spaceW - width / 2 - width / 2 + width / 2 := by
        linarith
      refine ⟨?_, ?_, ?_, ?_⟩
      · nlinarith
      · nlinarith
      · nlinarith
      · nlinarith
    · rw [hrw]; exact hchar.1
    · rw [hrw]; exact hchar.2.1
    · rw [hrw]; exact hchar.2.2

/-- Witness for C8: in a `10×10` arena holding one `2×2` rectangle at `(5,5)`,
a `2×2` spawn request with the single draw `(0,0)` is accepted at the center
`(1,1)`. -/
theorem spawn_characterization_witness :
    spawnRectangle ([⟨0, (5, 5), (0, 0), 2, 2, 1⟩] : List (Rect ℚ))
      [⟨4, 6, 0⟩] [⟨4, 6, 0⟩] 10 10 2 2 [(0, 0)] = .ok (1, 1) := by
  have h := spawn_characterization ([⟨0, (5, 5), (0, 0), 2, 2, 1⟩] : List (Rect ℚ))
    [⟨4, 6, 0⟩] [⟨4, 6, 0⟩] 10 10 2 2 [(0, 0)]
    (by intro r hr; simp at hr; subst hr; constructor <;> (simp; norm_num))
    (by simp)
    (by intro u hu; simp at hu; subst hu; norm_num)
  have hfree : ¬ overlapAnyAgent ([⟨0, (5, 5), (0, 0), 2, 2, 1⟩] : List (Rect ℚ))
      (sampleCenter 10 10 2 2 (0, 0)) 2 2 := by
    rw [overlapAnyAgent]
    simp only [List.mem_singleton]
    rintro ⟨r, hr, hov⟩
    subst hr
    rw [sampleCenter] at hov
    norm_num [rectsOverlap] at hov
  have := (h.2 (by norm_num) (by norm_num)).2.2.2 [] (0, 0) [] rfl (by simp) hfree
  rw [this]
  rw [sampleCenter]
  norm_num

/-! ## C10: frame effect of a single agent step -/

/-- C10: one `Rectangle.step` changes only the stepped rectangle's position
and velocity: every rectangle keeps its id, width, height and speed cap, and
every rectangle other than the stepped one also keeps its position and
velocity. -/
theorem agentStep_frame_effect (s : ModelState ℝ) (i : ℕ) :
    (agentStep Real.sqrt s i).agents.map
        (fun r => (r.id, r.width, r.height, r.speed)) =
      s.agents.map (fun r => (r.id, r.width, r.height, r.speed)) ∧
    (agentStep Real.sqrt s i).agents.map
        (fun r => if r.id = i then none else some (r.position, r.velocity)) =
      s.agents.map
        (fun r => if r.id = i then none else some (r.position, r.velocity)) := by
  rw [agentStep]
  rcases hg : getRect s.agents i with _ | a
  · exact ⟨rfl, rfl⟩
  · constructor <;>
    · dsimp only
      split
      all_goals
        rw [List.map_map]
        refine List.map_congr_left ?_
        intro r _
        by_cases hid : r.id = i <;> simp [Function.comp, hid]

/-! ## C2: containment is preserved by the model step -/

theorem clip_mem (x lo hi : K) (h : lo ≤ hi) :
    lo ≤ clip x lo hi ∧ clip x lo hi ≤ hi := by
  rw [clip]
  constructor
  · exact le_min (le_max_right x lo) h
  · exact min_le_right _ _

omit [LinearOrderedField K] in
theorem getRect_map_update (agents : List (Rect K)) (i j : ℕ)
    (f : Rect K → Rect K) (hid : ∀ r, (f r).id = r.id) :
    getRect (agents.map (fun r => if r.id = i then f r else r)) j =
      (getRect agents j).map (fun r => if r.id = i then f r else r) := by
  induction agents with
  | nil => rfl
  | cons a l ih =>
      by_cases hj : a.id = j
      · have hfa : (if a.id = i then f a else a).id = a.id := by
          split
          · exact hid a
          · rfl
        rw [List.map_cons, getRect, getRect,
          List.find?_cons_of_pos _ (by simpa [hfa] using hj),
          List.find?_cons_of_pos _ (by simpa using hj)]
        rfl
      · have hfa : (if a.id = i then f a else a).id = a.id := by
          split
          · exact hid a
          · rfl
        rw [List.map_cons, getRect, getRect,
          List.find?_cons_of_neg _ (by simpa [hfa] using hj),
          List.find?_cons_of_neg _ (by simpa using hj)]
        exact ih

theorem agentStep_space (sqrtK : K → K) (s : ModelState K) (i : ℕ) :
    (agentStep sqrtK s i).spaceW = s.spaceW ∧
      (agentStep sqrtK s i).spaceH = s.spaceH := by
  rw [agentStep]
  rcases getRect s.agents i with _ | a
  · exact ⟨rfl, rfl⟩
  · dsimp only
    split
    · exact ⟨rfl, rfl⟩
    · exact ⟨rfl, rfl⟩

/-- A single agent step keeps every contained rectangle contained: either the
rectangle is not the stepped one (untouched), the step returns early (position
unchanged), or the accepted position is clamped to the arena. -/
theorem agentStep_containment (sqrtK : K → K) (s : ModelState K) (i j : ℕ)
    (r : Rect K) (hr : getRect s.agents j = some r)
    (hb : inArena r s.spaceW s.spaceH) :
    ∃ r2, getRect (agentStep sqrtK s i).agents j = some r2 ∧
      r2.width = r.width ∧ r2.height = r.height ∧
      inArena r2 s.spaceW s.spaceH := by
  rw [agentStep]
  rcases hg : getRect s.agents i with _ | a
  · exact ⟨r, hr, rfl, rfl, hb⟩
  · have hwW : r.width ≤ s.spaceW := by
      obtain ⟨h1, h2, _, _⟩ := hb
      linarith
    have hhH : r.height ≤ s.spaceH := by
      obtain ⟨_, _, h3, h4⟩ := hb
      linarith
    dsimp only
    set v := velUpdate sqrtK a.velocity (deltaV sqrtK s.agents s.xTree s.yTree a)
      a.speed with hv
    set pv := integrate s.agents s.xTree s.yTree i a.position v a.width a.height
      with hpv
    split
    · dsimp only
      rw [getRect_map_update s.agents i j (fun r0 => { r0 with velocity := v })
        (fun r0 => rfl), hr, Option.map_some']
      refine ⟨_, rfl, ?_⟩
      by_cases hid : r.id = i
      · simp only [hid, if_pos]
        exact ⟨by trivial, by trivial, hb⟩
      · simp only [hid, ite_false]
        exact ⟨by trivial, by trivial, hb⟩
    · dsimp only
      set cl := ((clip pv.1.1 (a.width / 2) (s.spaceW - a.width / 2),
        clip pv.1.2 (a.height / 2) (s.spaceH - a.height / 2)) : K × K) with hcl
      rw [getRect_map_update s.agents i j
        (fun r0 => { r0 with position := cl, velocity := pv.2 })
        (fun r0 => rfl), hr, Option.map_some']
      refine ⟨_, rfl, ?_⟩
      by_cases hid : r.id = i
      · have hij : j = i := by
          have := (getRect_eq_some hr).2
          rw [← this, hid]
        have har : a = r := by
          rw [hij] at hr
          rw [hg] at hr
          injection hr
        subst har
        simp only [hid, if_pos]
        refine ⟨by trivial, by trivial, ?_, ?_, ?_, ?_⟩ <;>
        · have hx := clip_mem pv.1.1 (a.width / 2) (s.spaceW - a.width / 2)
            (by linarith)
          have hy := clip_mem pv.1.2 (a.height / 2) (s.spaceH - a.height / 2)
            (by linarith)
          obtain ⟨hx1, hx2⟩ := hx
          obtain ⟨hy1, hy2⟩ := hy
          linarith
      · simp only [hid, ite_false]
        exact ⟨by trivial, by trivial, hb⟩

/-- C2: a rectangle whose bounds lie within the arena before a tick, and whose
extents fit the arena, still has its bounds within the arena after the full
model step; its width and height are unchanged. -/
theorem containment_after_model_step (s : ModelState ℝ) (j : ℕ) (r : Rect ℝ)
    (hr : getRect s.agents j = some r)
    (hb : inArena r s.spaceW s.spaceH) :
    ∃ r2, getRect (modelStep Real.sqrt s).agents j = some r2 ∧
      r2.width = r.width ∧ r2.height = r.height ∧
      inArena r2 s.spaceW s.spaceH := by
  rw [modelStep]
  have main : ∀ (L : List ℕ) (s0 : ModelState ℝ),
      s0.spaceW = s.spaceW → s0.spaceH = s.spaceH →
      (∃ r2, getRect s0.agents j = some r2 ∧ r2.width = r.width ∧
        r2.height = r.height ∧ inArena r2 s.spaceW s.spaceH) →
      ∃ r2, getRect (L.foldl (agentStep Real.sqrt) s0).agents j = some r2 ∧
        r2.width = r.width ∧ r2.height = r.height ∧
        inArena r2 s.spaceW s.spaceH := by
    intro L
    induction L with
    | nil => intro s0 _ _ h; exact h
    | cons i L ih =>
        intro s0 hW hH h
        obtain ⟨r2, hr2, hw2, hh2, hb2⟩ := h
        rw [List.foldl_cons]
        have hstep := agentStep_containment Real.sqrt s0 i j r2 hr2
          (by rw [hW, hH]; exact hb2)
        obtain ⟨r3, hr3, hw3, hh3, hb3⟩ := hstep
        refine ih (agentStep Real.sqrt s0 i) ?_ ?_ ⟨r3, hr3, ?_, ?_, ?_⟩
        · rw [(agentStep_space Real.sqrt s0 i).1, hW]
        · rw [(agentStep_space Real.sqrt s0 i).2, hH]
        · rw [hw3, hw2]
        · rw [hh3, hh2]
        · rw [hW, hH] at hb3
          exact hb3
  exact main _ s rfl rfl ⟨r, hr, rfl, rfl, hb⟩

/-- Witness for C2: a single `2×2` rectangle at `(5,5)` with velocity `(0,0)`
in a `10×10` arena stays within the arena after one model step. -/
theorem containment_after_model_step_witness :
    ∃ r2, getRect (modelStep Real.sqrt
        ⟨[⟨0, (5, 5), (0, 0), 2, 2, 1⟩], [⟨4, 6, 0⟩], [⟨4, 6, 0⟩], 10, 10⟩).agents
        0 = some r2 ∧
      r2.width = (2 : ℝ) ∧ r2.height = (2 : ℝ) ∧
      inArena r2 (10 : ℝ) (10 : ℝ) :=
  containment_after_model_step
    ⟨[⟨0, (5, 5), (0, 0), 2, 2, 1⟩], [⟨4, 6, 0⟩], [⟨4, 6, 0⟩], 10, 10⟩ 0
    ⟨0, (5, 5), (0, 0), 2, 2, 1⟩ rfl
    (by rw [inArena]; norm_num)

/-! ## C6: the velocity update -/

/-- C6: the velocity update damps `(velocity + delta_v)` by `0.95`; when the
norm of the result exceeds the (nonnegative) speed cap the velocity is
rescaled to norm exactly the speed cap; finally, when the norm of the
(possibly rescaled) velocity is below `0.01` it is snapped to zero. -/
theorem velocity_update_spec (v dv : ℝ × ℝ) (speed : ℝ) (hs : 0 ≤ speed) :
    (norm2 Real.sqrt ((v.1 + dv.1) * (95 / 100), (v.2 + dv.2) * (95 / 100)) ≤ speed →
      velUpdate Real.sqrt v dv speed =
        if norm2 Real.sqrt ((v.1 + dv.1) * (95 / 100), (v.2 + dv.2) * (95 / 100)) <
            1 / 100 then (0, 0)
        else ((v.1 + dv.1) * (95 / 100), (v.2 + dv.2) * (95 / 100))) ∧
    (speed < norm2 Real.sqrt ((v.1 + dv.1) * (95 / 100), (v.2 + dv.2) * (95 / 100)) →
      norm2 Real.sqrt
        ((v.1 + dv.1) * (95 / 100) /
            norm2 Real.sqrt ((v.1 + dv.1) * (95 / 100), (v.2 + dv.2) * (95 / 100)) * speed,
         (v.2 + dv.2) * (95 / 100) /
            norm2 Real.sqrt ((v.1 + dv.1) * (95 / 100), (v.2 + dv.2) * (95 / 100)) * speed) =
        speed ∧
      velUpdate Real.sqrt v dv speed =
        if speed < 1 / 100 then (0, 0)
        else ((v.1 + dv.1) * (95 / 100) /
            norm2 Real.sqrt ((v.1 + dv.1) * (95 / 100), (v.2 + dv.2) * (95 / 100)) * speed,
          (v.2 + dv.2) * (95 / 100) /
            norm2 Real.sqrt ((v.1 + dv.1) * (95 / 100), (v.2 + dv.2) * (95 / 100)) * speed)) := by
  set a := (v.1 + dv.1) * (95 / 100) with ha
  set b := (v.2 + dv.2) * (95 / 100) with hb
  have hn0 : 0 ≤ norm2 Real.sqrt (a, b) := Real.sqrt_nonneg _
  constructor
  · intro hle
    rw [velUpdate]
    dsimp only
    rw [← ha, ← hb, if_neg (not_lt.2 hle)]
  · intro hgt
    have hnpos : 0 < norm2 Real.sqrt (a, b) := lt_of_le_of_lt hs hgt
    have hkey : norm2 Real.sqrt
        (a / norm2 Real.sqrt (a, b) * speed, b / norm2 Real.sqrt (a, b) * speed) =
        speed := by
      set n := norm2 Real.sqrt (a, b) with hn
      have hne : n ≠ 0 := ne_of_gt hnpos
      rw [norm2]
      dsimp only
      have harg : (a / n * speed) ^ 2 + (b / n * speed) ^ 2 =
          (a ^ 2 + b ^ 2) * (speed / n) ^ 2 := by
        field_simp
        ring
      rw [harg, Real.sqrt_mul (by positivity), Real.sqrt_sq_eq_abs,
        abs_of_nonneg (by positivity)]
      have hsq : Real.sqrt (a ^ 2 + b ^ 2) = n := by
        rw [hn, norm2]
      rw [hsq]
      field_simp
    refine ⟨hkey, ?_⟩
    rw [velUpdate]
    dsimp only
    rw [← ha, ← hb, if_pos hgt, hkey]

/-- Witness for C6: `v = (0,0)`, `delta_v = (60,80)`, speed cap `10`: the
damped velocity `(57,76)` has norm `95 > 10` and is rescaled to `(6,8)`,
which has norm exactly `10`. -/
theorem velocity_update_spec_witness :
    velUpdate Real.sqrt ((0 : ℝ), (0 : ℝ)) ((60 : ℝ), (80 : ℝ)) 10 = (6, 8) := by
  have hn : norm2 Real.sqrt
      ((((0 : ℝ), (0 : ℝ)).1 + ((60 : ℝ), (80 : ℝ)).1) * (95 / 100),
       (((0 : ℝ), (0 : ℝ)).2 + ((60 : ℝ), (80 : ℝ)).2) * (95 / 100)) = 95 := by
    rw [norm2]
    dsimp only
    rw [show ((0 + 60) * (95 / 100) : ℝ) ^ 2 + ((0 + 80) * (95 / 100)) ^ 2 =
      95 ^ 2 by norm_num, Real.sqrt_sq (by norm_num)]
  obtain ⟨-, hval⟩ := (velocity_update_spec ((0 : ℝ), (0 : ℝ))
    ((60 : ℝ), (80 : ℝ)) 10 (by norm_num)).2 (by rw [hn]; norm_num)
  rw [hval, if_neg (by norm_num), hn]
  norm_num

/-! ## C7: the separation contribution -/

/-- Amended C7: for a candidate `c ≠ R.id` dereferencing to `O`, the
separation contribution is nonzero exactly when
`0 < dist < 1.5 · min_separation`, and then equals the unit vector along
`R.position − O.position` scaled by `Ws_sep / (dist + 1e-8)` (the code adds
the epsilon `1e-8` to the denominator). -/
theorem sepContrib_amended_spec (agents : List (Rect ℝ)) (selfR : Rect ℝ)
    (c : ℕ) (o : Rect ℝ) (hc : c ≠ selfR.id) (ho : getRect agents c = some o) :
    sepContrib Real.sqrt agents selfR c =
      if 0 < norm2 Real.sqrt (selfR.position.1 - o.position.1,
            selfR.position.2 - o.position.2) ∧
          norm2 Real.sqrt (selfR.position.1 - o.position.1,
            selfR.position.2 - o.position.2) <
            Real.sqrt (((selfR.width + o.width) / 2) ^ 2 +
              ((selfR.height + o.height) / 2) ^ 2) * (3 / 2) then
        ((selfR.position.1 - o.position.1) /
            norm2 Real.sqrt (selfR.position.1 - o.position.1,
              selfR.position.2 - o.position.2) *
            (1 / (norm2 Real.sqrt (selfR.position.1 - o.position.1,
              selfR.position.2 - o.position.2) + 1 / 100000000)),
         (selfR.position.2 - o.position.2) /
            norm2 Real.sqrt (selfR.position.1 - o.position.1,
              selfR.position.2 - o.position.2) *
            (1 / (norm2 Real.sqrt (selfR.position.1 - o.position.1,
              selfR.position.2 - o.position.2) + 1 / 100000000)))
      else (0, 0) := by
  rw [sepContrib, if_neg hc, ho]
  dsimp only
  split
  · rw [one_mul]
  · rfl

/-- Witness for the amended C7 at a concrete pair of `2×2` rectangles at
`(5,5)` and `(6,5)`. -/
theorem sepContrib_amended_spec_witness :
    sepContrib Real.sqrt
      ([⟨0, (5, 5), (0, 0), 2, 2, 1⟩, ⟨1, (6, 5), (0, 0), 2, 2, 1⟩] : List (Rect ℝ))
      ⟨0, (5, 5), (0, 0), 2, 2, 1⟩ 1 =
      if 0 < norm2 Real.sqrt ((5 : ℝ) - 6, (5 : ℝ) - 5) ∧
          norm2 Real.sqrt ((5 : ℝ) - 6, (5 : ℝ) - 5) <
            Real.sqrt ((((2 : ℝ) + 2) / 2) ^ 2 + (((2 : ℝ) + 2) / 2) ^ 2) * (3 / 2) then
        (((5 : ℝ) - 6) / norm2 Real.sqrt ((5 : ℝ) - 6, (5 : ℝ) - 5) *
            (1 / (norm2 Real.sqrt ((5 : ℝ) - 6, (5 : ℝ) - 5) + 1 / 100000000)),
         ((5 : ℝ) - 5) / norm2 Real.sqrt ((5 : ℝ) - 6, (5 : ℝ) - 5) *
            (1 / (norm2 Real.sqrt ((5 : ℝ) - 6, (5 : ℝ) - 5) + 1 / 100000000)))
      else (0, 0) :=
  sepContrib_amended_spec
    ([⟨0, (5, 5), (0, 0), 2, 2, 1⟩, ⟨1, (6, 5), (0, 0), 2, 2, 1⟩] : List (Rect ℝ))
    ⟨0, (5, 5), (0, 0), 2, 2, 1⟩ 1 ⟨1, (6, 5), (0, 0), 2, 2, 1⟩
    (by norm_num) rfl

/-- Counterexample to C7 as stated: at two `2×2` rectangles centered `(5,5)`
and `(6,5)` (distance `1`, both broad-phase candidates), the separation
vector computed by the code differs from the spec-modelled
`Ws_sep / distance` scaling: the code divides by `distance + 1e-8`. -/
theorem separation_epsilon_counterexample :
    sepVec Real.sqrt
      ([⟨0, (5, 5), (0, 0), 2, 2, 1⟩, ⟨1, (6, 5), (0, 0), 2, 2, 1⟩] : List (Rect ℝ))
      ⟨0, (5, 5), (0, 0), 2, 2, 1⟩
      (potentialOverlaps [⟨4, 6, 0⟩, ⟨5, 7, 1⟩] [⟨4, 6, 0⟩, ⟨4, 6, 1⟩]
        ((5 : ℝ), 5) 2 2) ≠
    specSepVec Real.sqrt
      ([⟨0, (5, 5), (0, 0), 2, 2, 1⟩, ⟨1, (6, 5), (0, 0), 2, 2, 1⟩] : List (Rect ℝ))
      ⟨0, (5, 5), (0, 0), 2, 2, 1⟩
      (potentialOverlaps [⟨4, 6, 0⟩, ⟨5, 7, 1⟩] [⟨4, 6, 0⟩, ⟨4, 6, 1⟩]
        ((5 : ℝ), 5) 2 2) := by
  have hcands : potentialOverlaps ([⟨4, 6, 0⟩, ⟨5, 7, 1⟩] : Tree ℝ)
      ([⟨4, 6, 0⟩, ⟨4, 6, 1⟩] : Tree ℝ) ((5 : ℝ), 5) 2 2 = {0, 1} := by
    norm_num [potentialOverlaps, rectInterval, entryHit, List.filter]
  have hd : norm2 Real.sqrt ((5 : ℝ) - 6, (5 : ℝ) - 5) = 1 := by
    rw [norm2]
    norm_num
  have h8 : (2 : ℝ) ≤ Real.sqrt ((((2 : ℝ) + 2) / 2) ^ 2 + (((2 : ℝ) + 2) / 2) ^ 2) := by
    rw [Real.le_sqrt' (by norm_num)]
    norm_num
  have hzero : sepContrib Real.sqrt
      ([⟨0, (5, 5), (0, 0), 2, 2, 1⟩, ⟨1, (6, 5), (0, 0), 2, 2, 1⟩] : List (Rect ℝ))
      ⟨0, (5, 5), (0, 0), 2, 2, 1⟩ 0 = (0, 0) := by
    rw [sepContrib, if_pos rfl]
  have hzero2 : specSepContrib Real.sqrt
      ([⟨0, (5, 5), (0, 0), 2, 2, 1⟩, ⟨1, (6, 5), (0, 0), 2, 2, 1⟩] : List (Rect ℝ))
      ⟨0, (5, 5), (0, 0), 2, 2, 1⟩ 0 = (0, 0) := by
    rw [specSepContrib, if_pos rfl]
  have hone : sepContrib Real.sqrt
      ([⟨0, (5, 5), (0, 0), 2, 2, 1⟩, ⟨1, (6, 5), (0, 0), 2, 2, 1⟩] : List (Rect ℝ))
      ⟨0, (5, 5), (0, 0), 2, 2, 1⟩ 1 = (-(100000000 / 100000001 : ℝ), 0) := by
    rw [sepContrib, if_neg (by norm_num),
      show getRect ([⟨0, (5, 5), (0, 0), 2, 2, 1⟩,
        ⟨1, (6, 5), (0, 0), 2, 2, 1⟩] : List (Rect ℝ)) 1 =
        some ⟨1, (6, 5), (0, 0), 2, 2, 1⟩ from rfl]
    dsimp only
    rw [hd, if_pos ⟨by norm_num, by linarith⟩]
    norm_num
  have hone2 : specSepContrib Real.sqrt
      ([⟨0, (5, 5), (0, 0), 2, 2, 1⟩, ⟨1, (6, 5), (0, 0), 2, 2, 1⟩] : List (Rect ℝ))
      ⟨0, (5, 5), (0, 0), 2, 2, 1⟩ 1 = (-(1 : ℝ), 0) := by
    rw [specSepContrib, if_neg (by norm_num),
      show getRect ([⟨0, (5, 5), (0, 0), 2, 2, 1⟩,
        ⟨1, (6, 5), (0, 0), 2, 2, 1⟩] : List (Rect ℝ)) 1 =
        some ⟨1, (6, 5), (0, 0), 2, 2, 1⟩ from rfl]
    dsimp only
    rw [hd, if_pos ⟨by norm_num, by linarith⟩]
    norm_num
  rw [sepVec, specSepVec, hcands, Finset.sum_pair (by norm_num : (0 : ℕ) ≠ 1),
    Finset.sum_pair (by norm_num : (0 : ℕ) ≠ 1), hzero, hzero2, hone, hone2]
  intro h
  rw [Prod.mk.injEq] at h
  obtain ⟨h1, -⟩ := h
  norm_num at h1

section Sanity

example : rectsOverlap ((0 : ℚ), 0) 2 2 (1, 0) 2 2 = true := by
  norm_num [rectsOverlap]

example : rectsOverlap ((0 : ℚ), 0) 2 2 (2, 0) 2 2 = false := by
  norm_num [rectsOverlap]

example :
    potentialOverlaps ([⟨0, 2, 7⟩] : Tree ℚ) ([⟨0, 2, 7⟩] : Tree ℚ) (1, 1) 1 1 = {7} := by
  norm_num [potentialOverlaps, rectInterval, entryHit, List.filter]

example :
    overlapsAt ([⟨0, (1, 1), (0, 0), 1, 1, 1⟩] : List (Rect ℚ))
      [⟨(1:ℚ)/2, 3/2, 0⟩] [⟨(1:ℚ)/2, 3/2, 0⟩] 5 (1, 1) 1 1 = true := by
  norm_num [overlapsAt, potentialOverlaps, rectInterval, entryHit, List.filter,
    overlapWith, getRect, List.find?, rectsOverlap]

end Sanity

/-! ## C1: the arena clamp can produce an overlapping configuration -/

theorem clamp_deltaA : deltaV Real.sqrt clampState.agents clampState.xTree
    clampState.yTree ⟨0, (13, 5), (10, 0), 2, 2, 100⟩ =
    (2 / 5 + 27 / (5 * ((3 + 1 / 100000000) * (5 + 1 / 100000000))), 0) := by
  have h9 : Real.sqrt (9 : ℝ) = 3 := by
    rw [show (9 : ℝ) = 3 ^ 2 by norm_num, Real.sqrt_sq (by norm_num)]
  have h25 : Real.sqrt (25 : ℝ) = 5 := by
    rw [show (25 : ℝ) = 5 ^ 2 by norm_num, Real.sqrt_sq (by norm_num)]
  rw [show clampState.agents =
    [⟨0, (13, 5), (10, 0), 2, 2, 100⟩, ⟨1, (19, 5), (0, 0), 2, 6, 1⟩] from rfl,
    show clampState.xTree = [⟨12, 14, 0⟩, ⟨18, 20, 1⟩] from rfl,
    show clampState.yTree = [⟨4, 6, 0⟩, ⟨2, 8, 1⟩] from rfl, deltaV]
  norm_num [listMin, listMax, List.filter, sepVec, sepContrib, potentialOverlaps,
    rectInterval, entryHit, getRect, List.find?, norm2, h9, h25, Real.sqrt_zero]

theorem clamp_velA : velUpdate Real.sqrt ((10 : ℝ), (0 : ℝ))
    (2 / 5 + 27 / (5 * ((3 + 1 / 100000000) * (5 + 1 / 100000000))), 0) 100 =
    (wA, 0) := by
  have hn : norm2 Real.sqrt
      ((((10 : ℝ), (0 : ℝ)).1 +
          ((2 / 5 + 27 / (5 * ((3 + 1 / 100000000) * (5 + 1 / 100000000))) : ℝ),
            (0 : ℝ)).1) * (95 / 100),
        (((10 : ℝ), (0 : ℝ)).2 +
          ((2 / 5 + 27 / (5 * ((3 + 1 / 100000000) * (5 + 1 / 100000000))) : ℝ),
            (0 : ℝ)).2) * (95 / 100)) = wA := by
    rw [norm2]
    dsimp only
    rw [show ((10 + (2 / 5 + 27 / (5 * ((3 + 1 / 100000000) * (5 + 1 / 100000000))))) *
        (95 / 100) : ℝ) ^ 2 + ((0 + 0) * (95 / 100)) ^ 2 = wA ^ 2 by
      rw [wA]; ring,
      Real.sqrt_sq (by rw [wA]; positivity)]
  rw [velUpdate]
  dsimp only
  rw [hn]
  rw [if_neg (show ¬ (100 : ℝ) < wA by rw [wA]; norm_num)]
  rw [hn]
  rw [if_neg (show ¬ wA < 1 / 100 by rw [wA]; norm_num)]
  rw [Prod.mk.injEq, wA]
  norm_num

theorem clamp_stepA : agentStep Real.sqrt clampState 0 = clampState1 := by
  simp only [agentStep]
  rw [show getRect clampState.agents 0 =
    some (⟨0, (13, 5), (10, 0), 2, 2, 100⟩ : Rect ℝ) from rfl]
  dsimp only
  rw [clamp_deltaA, clamp_velA]
  rw [if_neg (by
    rintro ⟨h1, -⟩
    rw [abs_of_nonneg (by rw [wA]; positivity)] at h1
    rw [wA] at h1
    norm_num at h1)]
  have hcands : potentialOverlaps clampState.xTree clampState.yTree
      (((13 : ℝ), (5 : ℝ)).1 + ((wA, (0 : ℝ))).1,
        ((13 : ℝ), (5 : ℝ)).2 + ((wA, (0 : ℝ))).2) 2 2 = ∅ := by
    rw [show clampState.xTree = [⟨12, 14, 0⟩, ⟨18, 20, 1⟩] from rfl,
      show clampState.yTree = [⟨4, 6, 0⟩, ⟨2, 8, 1⟩] from rfl]
    norm_num [potentialOverlaps, rectInterval, entryHit, List.filter, wA]
  have hov : overlapsAt clampState.agents clampState.xTree clampState.yTree 0
      (((13 : ℝ), (5 : ℝ)).1 + ((wA, (0 : ℝ))).1,
        ((13 : ℝ), (5 : ℝ)).2 + ((wA, (0 : ℝ))).2) 2 2 = false := by
    rw [overlapsAt, hcands]
    simp
  rw [integrate]
  dsimp only
  rw [hov]
  simp only [show (false = true) = False from by simp, if_false]
  rw [show clip (((13 : ℝ), (5 : ℝ)).1 + ((wA, (0 : ℝ))).1) (2 / 2)
      (clampState.spaceW - 2 / 2) = 19 by
    rw [show clampState.spaceW = (20 : ℝ) from rfl, clip]
    dsimp only
    rw [max_eq_left (by rw [wA]; norm_num), min_eq_right (by rw [wA]; norm_num)]
    norm_num]
  rw [show clip (((13 : ℝ), (5 : ℝ)).2 + ((wA, (0 : ℝ))).2) (2 / 2)
      (clampState.spaceH - 2 / 2) = 5 by
    rw [show clampState.spaceH = (20 : ℝ) from rfl, clip]
    dsimp only
    rw [max_eq_left (by norm_num), min_eq_left (by norm_num)]
    norm_num]
  rw [show clampState.agents =
    [⟨0, (13, 5), (10, 0), 2, 2, 100⟩, ⟨1, (19, 5), (0, 0), 2, 6, 1⟩] from rfl,
    show clampState.xTree = [⟨12, 14, 0⟩, ⟨18, 20, 1⟩] from rfl,
    show clampState.yTree = [⟨4, 6, 0⟩, ⟨2, 8, 1⟩] from rfl, clampState1]
  rw [show clampState = ⟨[⟨0, (13, 5), (10, 0), 2, 2, 100⟩,
    ⟨1, (19, 5), (0, 0), 2, 6, 1⟩], [⟨12, 14, 0⟩, ⟨18, 20, 1⟩],
    [⟨4, 6, 0⟩, ⟨2, 8, 1⟩], 20, 20⟩ from rfl]
  norm_num [updateAgentIntervals, removeAgentEntries, rectInterval, List.filter]

theorem wA_pos : (0 : ℝ) < wA := by
  rw [wA]
  norm_num

theorem clamp_deltaB : deltaV Real.sqrt clampState1.agents clampState1.xTree
    clampState1.yTree ⟨1, (19, 5), (0, 0), 2, 6, 1⟩ = (1 / 5, 0) := by
  have hsw : Real.sqrt (wA ^ 2) = wA := Real.sqrt_sq (le_of_lt wA_pos)
  have hdiv : wA / wA = 1 := div_self (ne_of_gt wA_pos)
  rw [show clampState1.agents =
    [⟨0, (19, 5), (wA, 0), 2, 2, 100⟩, ⟨1, (19, 5), (0, 0), 2, 6, 1⟩] from rfl,
    show clampState1.xTree = [⟨18, 20, 1⟩, ⟨18, 20, 0⟩] from rfl,
    show clampState1.yTree = [⟨2, 8, 1⟩, ⟨4, 6, 0⟩] from rfl, deltaV]
  norm_num [listMin, listMax, List.filter, sepVec, sepContrib, potentialOverlaps,
    rectInterval, entryHit, getRect, List.find?, norm2, Real.sqrt_zero, hsw,
    hdiv, wA_pos, Finset.sum_insert, Finset.sum_singleton, Finset.mem_singleton]

theorem clamp_velB : velUpdate Real.sqrt ((0 : ℝ), (0 : ℝ)) ((1 / 5 : ℝ), 0) 1 =
    (19 / 100, 0) := by
  have hn : norm2 Real.sqrt
      ((((0 : ℝ), (0 : ℝ)).1 + ((1 / 5 : ℝ), (0 : ℝ)).1) * (95 / 100),
        (((0 : ℝ), (0 : ℝ)).2 + ((1 / 5 : ℝ), (0 : ℝ)).2) * (95 / 100)) =
      19 / 100 := by
    rw [norm2]
    dsimp only
    rw [show ((0 + 1 / 5) * (95 / 100) : ℝ) ^ 2 + ((0 + 0) * (95 / 100)) ^ 2 =
      (19 / 100) ^ 2 by norm_num, Real.sqrt_sq (by norm_num)]
  rw [velUpdate]
  dsimp only
  rw [hn]
  rw [if_neg (show ¬ (1 : ℝ) < 19 / 100 by norm_num)]
  rw [hn]
  rw [if_neg (show ¬ (19 / 100 : ℝ) < 1 / 100 by norm_num)]
  rw [Prod.mk.injEq]
  norm_num

theorem clamp_overlapsB : ∀ x y : ℝ, 19 ≤ x → x ≤ 1931 / 100 → y = 5 →
    overlapsAt clampState1.agents clampState1.xTree clampState1.yTree 1
      (x, y) 2 6 = true := by
  intro x y hx1 hx2 hy
  subst hy
  rw [overlapsAt, decide_eq_true_eq]
  refine ⟨0, ?_, by norm_num, ?_⟩
  · rw [mem_potentialOverlaps]
    refine ⟨⟨⟨18, 20, 0⟩, ?_, ?_, rfl⟩, ⟨⟨4, 6, 0⟩, ?_, ?_, rfl⟩⟩
    · rw [show clampState1.xTree = [⟨18, 20, 1⟩, ⟨18, 20, 0⟩] from rfl]
      simp
    · rw [entryHit_iff]
      dsimp only
      constructor <;> linarith
    · rw [show clampState1.yTree = [⟨2, 8, 1⟩, ⟨4, 6, 0⟩] from rfl]
      simp
    · rw [entryHit_iff]
      dsimp only
      constructor <;> linarith
  · show rectsOverlap ((x, (5 : ℝ)) : ℝ × ℝ) 2 6 ((19 : ℝ), 5) 2 2 = true
    rw [rectsOverlap_iff]
    dsimp only
    refine ⟨⟨?_, ?_⟩, ?_, ?_⟩ <;> linarith

theorem clamp_stepB : agentStep Real.sqrt clampState1 1 = clampState2 := by
  simp only [agentStep]
  rw [show getRect clampState1.agents 1 =
    some (⟨1, (19, 5), (0, 0), 2, 6, 1⟩ : Rect ℝ) from rfl]
  dsimp only
  rw [clamp_deltaB, clamp_velB]
  rw [if_neg (by
    rintro ⟨h1, -⟩
    rw [abs_of_nonneg (by norm_num)] at h1
    norm_num at h1)]
  rw [integrate]
  dsimp only
  rw [clamp_overlapsB (((19 : ℝ), (5 : ℝ)).1 + (((19 / 100 : ℝ), (0 : ℝ))).1)
    (((19 : ℝ), (5 : ℝ)).2 + (((19 / 100 : ℝ), (0 : ℝ))).2)
    (by norm_num) (by norm_num) (by norm_num)]
  rw [clamp_overlapsB (((19 : ℝ), (5 : ℝ)).1 + (((19 / 100 : ℝ), (0 : ℝ))).1)
    (((19 : ℝ), (5 : ℝ)).2) (by norm_num) (by norm_num) (by norm_num)]
  rw [clamp_overlapsB (((19 : ℝ), (5 : ℝ)).1)
    (((19 : ℝ), (5 : ℝ)).2 + (((19 / 100 : ℝ), (0 : ℝ))).2)
    (by norm_num) (by norm_num) (by norm_num)]
  simp only [if_true, show (true = false) = False from by simp, if_false]
  have hzeroB : (bisectLoop (fun m => overlapsAt clampState1.agents
      clampState1.xTree clampState1.yTree 1
      (((19 : ℝ), (5 : ℝ)).1 + (((19 / 100 : ℝ), (0 : ℝ))).1 * m,
        ((19 : ℝ), (5 : ℝ)).2 + (((19 / 100 : ℝ), (0 : ℝ))).2 * m) 2 6)
      12 (0, 1)).1 = 0 := by
    refine bisectLoop_low_zero _ ?_ 12 1 (by norm_num) (by norm_num)
    intro m hm0 hm1
    refine clamp_overlapsB _ _ ?_ ?_ ?_
    · dsimp only
      linarith
    · dsimp only
      linarith
    · dsimp only
      norm_num
  rw [hzeroB]
  rw [if_pos (show (0 : ℝ) ≤ 1 / 100000000 by norm_num)]
  rw [show clip (((19 : ℝ), (5 : ℝ)) : ℝ × ℝ).1 (2 / 2)
      (clampState1.spaceW - 2 / 2) = 19 by
    rw [show clampState1.spaceW = (20 : ℝ) from rfl, clip]
    dsimp only
    rw [max_eq_left (by norm_num), min_eq_left (by norm_num)]]
  rw [show clip (((19 : ℝ), (5 : ℝ)) : ℝ × ℝ).2 (6 / 2)
      (clampState1.spaceH - 6 / 2) = 5 by
    rw [show clampState1.spaceH = (20 : ℝ) from rfl, clip]
    dsimp only
    rw [max_eq_left (by norm_num), min_eq_left (by norm_num)]]
  rw [show clampState1 = ⟨[⟨0, (19, 5), (wA, 0), 2, 2, 100⟩,
    ⟨1, (19, 5), (0, 0), 2, 6, 1⟩], [⟨18, 20, 1⟩, ⟨18, 20, 0⟩],
    [⟨2, 8, 1⟩, ⟨4, 6, 0⟩], 20, 20⟩ from rfl, clampState2]
  norm_num [updateAgentIntervals, removeAgentEntries, rectInterval, List.filter]

/-- C1 (refuted — the code contradicts its own "no overlap" docstring): in
`clampState` no pair of rectangles overlaps, yet after one full model step
(Force Model, Integrator and arena clamp for every rectangle) the two
rectangles exactly overlap.  The integrator accepts a collision-free position
beyond the right wall for rectangle 0, and the final clamp then moves it onto
rectangle 1 without re-checking the overlap predicate. -/
theorem clamp_breaks_no_overlap :
    (rectsOverlap ((13 : ℝ), 5) 2 2 ((19 : ℝ), 5) 2 6 = false ∧
      rectsOverlap ((19 : ℝ), 5) 2 6 ((13 : ℝ), 5) 2 2 = false) ∧
    ∃ a b : Rect ℝ,
      getRect (modelStep Real.sqrt clampState).agents 0 = some a ∧
      getRect (modelStep Real.sqrt clampState).agents 1 = some b ∧
      rectsOverlap a.position a.width a.height b.position b.width b.height =
        true := by
  have hmodel : modelStep Real.sqrt clampState = clampState2 := by
    rw [modelStep, show clampState.agents.map Rect.id = [0, 1] from rfl,
      List.foldl_cons, clamp_stepA, List.foldl_cons, clamp_stepB, List.foldl_nil]
  refine ⟨⟨by norm_num [rectsOverlap], by norm_num [rectsOverlap]⟩, ?_⟩
  refine ⟨⟨0, (19, 5), (wA, 0), 2, 2, 100⟩, ⟨1, (19, 5), (0, 0), 2, 6, 1⟩,
    ?_, ?_, ?_⟩
  · rw [hmodel]
    rfl
  · rw [hmodel]
    rfl
  · norm_num [rectsOverlap]

end RectSim
